import Mathlib

/-!
# Verification of the ARC grid-transformation DSL (`dsl/transform.py`)

A shallow embedding of the mask-parameterized grid transformation engine.
Grids are 2-D integer arrays; selections are stacks of boolean masks; every
operator stacks the grid into a 3-D working array (one layer per mask) and
rewrites it.  NumPy fancy-indexing assignments are embedded as explicit
write lists (position/value pairs, in NumPy's lexicographic enumeration
order) folded over a total data function.

Helpers that live in `dsl/utilities/transformation_utilities.py` and
`dsl/color_select.py` (`create_grid3d`, `find_bounding_rectangle`,
`find_bounding_square`, `mostcolor`) are not among the provided sources;
they are modelled from the specification and marked as such.
-/

namespace ARC

/-- A cell position in a 3-D grid stack: (layer, row, column). -/
abbrev Pos := Nat × Nat × Nat

/-- A 2-D grid of integer colors.  `data` is a total function; only the
cells with `r < rows` and `c < cols` are meaningful. -/
structure Grid where
  rows : Nat
  cols : Nat
  data : Nat → Nat → Int

/-- A stack of boolean selection masks of shape `(n, rows, cols)`. -/
structure Sel where
  n : Nat
  rows : Nat
  cols : Nat
  data : Nat → Nat → Nat → Bool

/-- A stack of 2-D grids of shape `(n, rows, cols)`. -/
structure Grid3 where
  n : Nat
  rows : Nat
  cols : Nat
  data : Nat → Nat → Nat → Int

/-- The data of a stack as a function of positions. -/
def Grid3.fn (G : Grid3) : Pos → Int := fun p => G.data p.1 p.2.1 p.2.2

/-- Build a grid from a row-major list of rows (0 outside). -/
def Grid.ofLists (l : List (List Int)) : Grid :=
  ⟨l.length, (l.headD []).length, fun r c => (l.getD r []).getD c 0⟩

/-- Build a selection stack from a list of layers, each a list of rows. -/
def Sel.ofLists (l : List (List (List Bool))) : Sel :=
  ⟨l.length, (l.headD []).length, ((l.headD []).headD []).length,
   fun i r c => ((l.getD i []).getD r []).getD c false⟩

/-- Modelled from the spec: `create_grid3d` (the Layer Stacker) lives in
`dsl/utilities/transformation_utilities.py`, which is not among the provided
sources.  Spec §4.1: given a 2-D grid and an N-layer boolean mask, return an
`(N, rows, cols)` array whose every layer equals the input grid. -/
def create_grid3d (grid : Grid) (selection : Sel) : Grid3 :=
  ⟨selection.n, grid.rows, grid.cols, fun _ r c => grid.data r c⟩

/-- All (layer, row, col) triples of an `(n, rows, cols)` shape, in
lexicographic (row-major) order — the order in which NumPy enumerates
indices. -/
def allTriples (n rows cols : Nat) : List Pos :=
  (List.range n).flatMap fun i =>
    (List.range rows).flatMap fun r =>
      (List.range cols).map fun c => (i, r, c)

/-- Positions given by `np.where(selection)`: positions of the `true` cells, in lexicographic
order, as used by the displacement operators. -/
def npWhere (s : Sel) : List Pos :=
  (allTriples s.n s.rows s.cols).filter fun p => s.data p.1 p.2.1 p.2.2

theorem mem_allTriples {n rows cols : Nat} {p : Pos} :
    p ∈ allTriples n rows cols ↔ p.1 < n ∧ p.2.1 < rows ∧ p.2.2 < cols := by
  obtain ⟨i, r, c⟩ := p
  simp only [allTriples, List.mem_flatMap, List.mem_map, List.mem_range]
  constructor
  · rintro ⟨a, ha, b, hb, d, hd, heq⟩
    cases heq
    exact ⟨ha, hb, hd⟩
  · rintro ⟨h1, h2, h3⟩
    exact ⟨i, h1, r, h2, c, h3, rfl⟩

theorem mem_npWhere {s : Sel} {p : Pos} :
    p ∈ npWhere s ↔
      (p.1 < s.n ∧ p.2.1 < s.rows ∧ p.2.2 < s.cols) ∧ s.data p.1 p.2.1 p.2.2 = true := by
  unfold npWhere
  rw [List.mem_filter, mem_allTriples]

/-- A `flatMap` whose chunks are nonduplicated and carry their index as a
tag is nonduplicated. -/
theorem nodup_flatMap_tagged {α : Type} (L : List Nat) (f : Nat → List α) (tag : α → Nat)
    (hL : L.Nodup) (hf : ∀ i ∈ L, (f i).Nodup) (htag : ∀ i ∈ L, ∀ x ∈ f i, tag x = i) :
    (L.flatMap f).Nodup := by
  apply List.nodup_flatMap.2
  refine ⟨hf, ?_⟩
  induction L with
  | nil => exact List.Pairwise.nil
  | cons a t ih =>
    refine List.Pairwise.cons ?_ ?_
    · intro b hb
      intro x hxa hxb
      have ha' : tag x = a := htag a (by simp) x hxa
      have hb' : tag x = b := htag b (by simp [hb]) x hxb
      have : a ≠ b := by
        intro h
        exact (List.nodup_cons.1 hL).1 (h ▸ hb)
      exact this (ha'.symm.trans hb')
    · exact ih (List.nodup_cons.1 hL).2 (fun i hi => hf i (by simp [hi]))
        (fun i hi x hx => htag i (by simp [hi]) x hx)

theorem nodup_allTriples (n rows cols : Nat) : (allTriples n rows cols).Nodup := by
  unfold allTriples
  apply nodup_flatMap_tagged _ _ (fun p => p.1) (List.nodup_range n)
  · intro i _
    apply nodup_flatMap_tagged _ _ (fun p => p.2.1) (List.nodup_range rows)
    · intro r _
      refine (List.nodup_range cols).map_on ?_
      intro a _ b _ h
      exact congrArg (fun q : Pos => q.2.2) h
    · intro r _ x hx
      simp only [List.mem_map] at hx
      obtain ⟨c, _, rfl⟩ := hx
      rfl
  · intro i _ x hx
    simp only [List.mem_flatMap, List.mem_map] at hx
    obtain ⟨r, _, c, _, rfl⟩ := hx
    rfl

theorem nodup_npWhere (s : Sel) : (npWhere s).Nodup :=
  (nodup_allTriples s.n s.rows s.cols).filter _

/-- Point update of a total data function (one NumPy element assignment). -/
def store (f : Pos → Int) (p : Pos) (v : Int) : Pos → Int :=
  fun q => if q = p then v else f q

/-- Sequential overwriting assignments `grid[positions] = values`
(last write wins, as NumPy fancy-indexing assignment does). -/
def applyWrites (ws : List (Pos × Int)) (f : Pos → Int) : Pos → Int :=
  ws.foldl (fun g pv => store g pv.1 pv.2) f

/-- Sequential accumulating assignments `np.add.at(grid, positions, values)`. -/
def applyAdds (ws : List (Pos × Int)) (f : Pos → Int) : Pos → Int :=
  ws.foldl (fun g pv => store g pv.1 (g pv.1 + pv.2)) f

theorem applyWrites_of_not_mem {ws : List (Pos × Int)} {f : Pos → Int} {q : Pos}
    (h : ∀ pv ∈ ws, pv.1 ≠ q) : applyWrites ws f q = f q := by
  induction ws generalizing f with
  | nil => rfl
  | cons pv rest ih =>
    have step : applyWrites (pv :: rest) f = applyWrites rest (store f pv.1 pv.2) := rfl
    have hpv : pv.1 ≠ q := h pv (List.mem_cons.2 (Or.inl rfl))
    rw [step, ih (fun x hx => h x (List.mem_cons.2 (Or.inr hx)))]
    show (if q = pv.1 then pv.2 else f q) = f q
    exact if_neg (fun hq => hpv hq.symm)

theorem applyWrites_of_mem {ws : List (Pos × Int)} {f : Pos → Int} {q : Pos} {v : Int}
    (hnd : (ws.map Prod.fst).Nodup) (hmem : (q, v) ∈ ws) : applyWrites ws f q = v := by
  induction ws generalizing f with
  | nil => cases hmem
  | cons pv rest ih =>
    have hnd' : pv.1 ∉ rest.map Prod.fst ∧ (rest.map Prod.fst).Nodup :=
      List.nodup_cons.1 (by simpa using hnd)
    have step : applyWrites (pv :: rest) f = applyWrites rest (store f pv.1 pv.2) := rfl
    rcases List.mem_cons.1 hmem with hhd | htl
    · have hq : pv.1 = q := by rw [← hhd]
      have hnotin : ∀ x ∈ rest, x.1 ≠ q := by
        intro x hx hxq
        exact hnd'.1 (hq ▸ hxq ▸ List.mem_map_of_mem Prod.fst hx)
      have hv : pv.2 = v := by rw [← hhd]
      rw [step, applyWrites_of_not_mem hnotin]
      show (if q = pv.1 then pv.2 else f q) = v
      rw [if_pos hq.symm, hv]
    · exact step ▸ ih hnd'.2 htl

theorem applyAdds_of_not_mem {ws : List (Pos × Int)} {f : Pos → Int} {q : Pos}
    (h : ∀ pv ∈ ws, pv.1 ≠ q) : applyAdds ws f q = f q := by
  induction ws generalizing f with
  | nil => rfl
  | cons pv rest ih =>
    have step : applyAdds (pv :: rest) f = applyAdds rest (store f pv.1 (f pv.1 + pv.2)) := rfl
    have hpv : pv.1 ≠ q := h pv (List.mem_cons.2 (Or.inl rfl))
    rw [step, ih (fun x hx => h x (List.mem_cons.2 (Or.inr hx)))]
    show (if q = pv.1 then f pv.1 + pv.2 else f q) = f q
    exact if_neg (fun hq => hpv hq.symm)

theorem applyAdds_of_mem {ws : List (Pos × Int)} {f : Pos → Int} {q : Pos} {v : Int}
    (hnd : (ws.map Prod.fst).Nodup) (hmem : (q, v) ∈ ws) : applyAdds ws f q = f q + v := by
  induction ws generalizing f with
  | nil => cases hmem
  | cons pv rest ih =>
    have hnd' : pv.1 ∉ rest.map Prod.fst ∧ (rest.map Prod.fst).Nodup :=
      List.nodup_cons.1 (by simpa using hnd)
    have step : applyAdds (pv :: rest) f = applyAdds rest (store f pv.1 (f pv.1 + pv.2)) := rfl
    rcases List.mem_cons.1 hmem with hhd | htl
    · have hq : pv.1 = q := by rw [← hhd]
      have hnotin : ∀ x ∈ rest, x.1 ≠ q := by
        intro x hx hxq
        exact hnd'.1 (hq ▸ hxq ▸ List.mem_map_of_mem Prod.fst hx)
      have hv : pv.2 = v := by rw [← hhd]
      rw [step, applyAdds_of_not_mem hnotin]
      show (if q = pv.1 then f pv.1 + pv.2 else f q) = f q + v
      rw [if_pos hq.symm, hv, hq]
    · have hqmem : q ∈ rest.map Prod.fst := List.mem_map.2 ⟨(q, v), htl, rfl⟩
      have hne : pv.1 ≠ q := fun hq => hnd'.1 (hq ▸ hqmem)
      rw [step, ih hnd'.2 htl]
      show (if q = pv.1 then f pv.1 + pv.2 else f q) + v = f q + v
      rw [if_neg (fun h => hne h.symm)]

/-- The shifted position of a selected cell: rows move by `shift_y`,
columns by `shift_x` (as in `transform.py`, lines 200-201). -/
def shiftPos (shift_x shift_y : Int) (p : Pos) : Pos :=
  (p.1, ((p.2.1 : Int) + shift_y).toNat, ((p.2.2 : Int) + shift_x).toNat)

/-- The `valid_mask` bounds filter shared by the four displacement
operators: the shifted coordinate must lie in `[0, rows) × [0, cols)`. -/
def shiftValid (rows cols : Nat) (shift_x shift_y : Int) (p : Pos) : Bool :=
  decide (0 ≤ (p.2.1 : Int) + shift_y) && decide ((p.2.1 : Int) + shift_y < (rows : Int)) &&
  decide (0 ≤ (p.2.2 : Int) + shift_x) && decide ((p.2.2 : Int) + shift_x < (cols : Int))

/-- Embeds `Transformer.copy_paste`: gather the selected positions, shift them,
drop the out-of-bounds ones, and overwrite the shifted destinations with the
values read (before any write) at the original positions. -/
def copy_paste (grid : Grid) (selection : Sel) (shift_x shift_y : Int) : Grid3 :=
  let grid_3d := create_grid3d grid selection
  let valid := (npWhere selection).filter (shiftValid grid_3d.rows grid_3d.cols shift_x shift_y)
  let writes := valid.map fun p => (shiftPos shift_x shift_y p, grid_3d.fn p)
  { grid_3d with data := fun i r c => applyWrites writes grid_3d.fn (i, r, c) }

/-- Embeds `Transformer.copy_sum`: like `copy_paste` but destinations accumulate
(`np.add.at`). -/
def copy_sum (grid : Grid) (selection : Sel) (shift_x shift_y : Int) : Grid3 :=
  let grid_3d := create_grid3d grid selection
  let valid := (npWhere selection).filter (shiftValid grid_3d.rows grid_3d.cols shift_x shift_y)
  let writes := valid.map fun p => (shiftPos shift_x shift_y p, grid_3d.fn p)
  { grid_3d with data := fun i r c => applyAdds writes grid_3d.fn (i, r, c) }

/-- Embeds `Transformer.cut_paste`: gather values at the surviving (in-bounds after
shift) selected positions, zero the *entire* original selection, then
overwrite the shifted destinations with the gathered values. -/
def cut_paste (grid : Grid) (selection : Sel) (shift_x shift_y : Int) : Grid3 :=
  let grid_3d := create_grid3d grid selection
  let valid := (npWhere selection).filter (shiftValid grid_3d.rows grid_3d.cols shift_x shift_y)
  let writes := valid.map fun p => (shiftPos shift_x shift_y p, grid_3d.fn p)
  let clears := (npWhere selection).map fun p => (p, (0 : Int))
  { grid_3d with data := fun i r c => applyWrites writes (applyWrites clears grid_3d.fn) (i, r, c) }

/-- Embeds `Transformer.cut_sum`: the clearing step of `cut_paste` followed by the
accumulating write of `copy_sum`. -/
def cut_sum (grid : Grid) (selection : Sel) (shift_x shift_y : Int) : Grid3 :=
  let grid_3d := create_grid3d grid selection
  let valid := (npWhere selection).filter (shiftValid grid_3d.rows grid_3d.cols shift_x shift_y)
  let writes := valid.map fun p => (shiftPos shift_x shift_y p, grid_3d.fn p)
  let clears := (npWhere selection).map fun p => (p, (0 : Int))
  { grid_3d with data := fun i r c => applyAdds writes (applyWrites clears grid_3d.fn) (i, r, c) }

/-- Decidable comparison of one layer of a stack against a row-major list
(used to state concrete scenarios). -/
def layerMatches (G : Grid3) (i : Nat) (l : List (List Int)) : Bool :=
  decide (G.rows = l.length) &&
  (List.range G.rows).all fun r =>
    decide (G.cols = (l.getD r []).length) &&
    (List.range G.cols).all fun c => G.data i r c == (l.getD r []).getD c 0

/-- Sum of the values of layer `i` of a stack (over the recorded extent). -/
def layerSum (G : Grid3) (i : Nat) : Int :=
  ((List.range G.rows).map fun r => ((List.range G.cols).map fun c => G.data i r c).sum).sum

/-- Sum of all values of a 2-D grid (over the recorded extent). -/
def gridSum (g : Grid) : Int :=
  ((List.range g.rows).map fun r => ((List.range g.cols).map fun c => g.data r c).sum).sum

/-- The shifted write list of the displacement operators misses any position
that is not the in-bounds shift of some selected cell. -/
theorem writes_miss {grid : Grid} {selection : Sel} {sx sy : Int} {q : Pos}
    (h : ∀ p ∈ npWhere selection, shiftValid grid.rows grid.cols sx sy p = true →
      shiftPos sx sy p ≠ q) :
    ∀ pv ∈ ((npWhere selection).filter (shiftValid grid.rows grid.cols sx sy)).map
      (fun p => (shiftPos sx sy p, (create_grid3d grid selection).fn p)), pv.1 ≠ q := by
  intro pv hpv
  obtain ⟨p, hp, rfl⟩ := List.mem_map.1 hpv
  obtain ⟨hmem, hvalid⟩ := List.mem_filter.1 hp
  exact h p hmem hvalid

/-- Value of the working stack after the clearing step of the cut operators:
zero on the originally selected cells, untouched elsewhere. -/
theorem cleared_fn (grid : Grid) (selection : Sel) (q : Pos) :
    applyWrites ((npWhere selection).map fun p => (p, (0 : Int)))
      (create_grid3d grid selection).fn q =
      (if q ∈ npWhere selection then 0 else (create_grid3d grid selection).fn q) := by
  by_cases hq : q ∈ npWhere selection
  · rw [if_pos hq]
    apply applyWrites_of_mem
    · have hfst : ((npWhere selection).map fun p => (p, (0 : Int))).map Prod.fst
          = npWhere selection := by
        rw [List.map_map]
        exact List.map_id _
      rw [hfst]
      exact nodup_npWhere selection
    · exact List.mem_map.2 ⟨q, hq, rfl⟩
  · rw [if_neg hq]
    apply applyWrites_of_not_mem
    intro pv hpv
    obtain ⟨p, hp, rfl⟩ := List.mem_map.1 hpv
    exact fun hpq => hq (hpq ▸ hp)

/-- C5: For every grid, selection mask and integer shifts, the four
displacement operators preserve the stack shape and leave every cell that is
not the in-bounds shifted destination of a selected cell at its base value
(the input grid for the copy variants, the cleared grid for the cut
variants): selected cells whose shifted coordinate leaves the grid are
dropped, never wrapped or clamped, and nothing is written out of bounds. -/
theorem c5_displacement_bounds (grid : Grid) (selection : Sel) (shift_x shift_y : Int)
    (i r c : Nat)
    (h : ∀ p ∈ npWhere selection, shiftValid grid.rows grid.cols shift_x shift_y p = true →
      shiftPos shift_x shift_y p ≠ (i, r, c)) :
    (copy_paste grid selection shift_x shift_y).rows = grid.rows ∧
    (copy_paste grid selection shift_x shift_y).cols = grid.cols ∧
    (copy_paste grid selection shift_x shift_y).n = selection.n ∧
    (copy_paste grid selection shift_x shift_y).data i r c = grid.data r c ∧
    (copy_sum grid selection shift_x shift_y).data i r c = grid.data r c ∧
    (cut_paste grid selection shift_x shift_y).data i r c =
      (if ((i, r, c) : Pos) ∈ npWhere selection then 0 else grid.data r c) ∧
    (cut_sum grid selection shift_x shift_y).data i r c =
      (if ((i, r, c) : Pos) ∈ npWhere selection then 0 else grid.data r c) := by
  refine ⟨rfl, rfl, rfl, ?_, ?_, ?_, ?_⟩
  · exact applyWrites_of_not_mem (writes_miss h)
  · exact applyAdds_of_not_mem (writes_miss h)
  · exact (applyWrites_of_not_mem (writes_miss h)).trans (cleared_fn grid selection (i, r, c))
  · exact (applyAdds_of_not_mem (writes_miss h)).trans (cleared_fn grid selection (i, r, c))

/-- Witness for C5: a selected cell shifted fully out of a 1×1 grid is
dropped; the probed cell keeps its base value under all four operators. -/
theorem c5_witness :
    (copy_paste (Grid.ofLists [[7]]) (Sel.ofLists [[[true]]]) 5 5).data 0 0 0 = 7 ∧
    (cut_paste (Grid.ofLists [[7]]) (Sel.ofLists [[[true]]]) 5 5).data 0 0 0 =
      (if ((0, 0, 0) : Pos) ∈ npWhere (Sel.ofLists [[[true]]]) then 0 else 7) := by
  have h := c5_displacement_bounds (Grid.ofLists [[7]]) (Sel.ofLists [[[true]]]) 5 5 0 0 0
    (by decide)
  exact ⟨h.2.2.2.1, h.2.2.2.2.2.1⟩

/-- C2 counterexample: On grid `[[0,0,0],[0,5,0],[0,0,0]]` with the mask
selecting only cell (1,1), `copy_paste` with `shift_x = 1, shift_y = 0` does
*not* produce `[[0,0,0],[0,0,5],[0,0,0]]`: the source cell (1,1) keeps its
value 5 under copy semantics, so the claimed layer (with 0 at (1,1)) is
wrong. -/
theorem c2_counterexample :
    layerMatches (copy_paste (Grid.ofLists [[0,0,0],[0,5,0],[0,0,0]])
      (Sel.ofLists [[[false,false,false],[false,true,false],[false,false,false]]]) 1 0) 0
      [[0,0,0],[0,0,5],[0,0,0]] = false := by decide

/-- C2 amended: On grid `[[0,0,0],[0,5,0],[0,0,0]]` with the mask
selecting only cell (1,1), `copy_paste` with `shift_x = 1, shift_y = 0`
yields `[[0,0,0],[0,5,5],[0,0,0]]`: the 5 is copied one cell to the right
and the original cell retains its value. -/
theorem c2_amended :
    layerMatches (copy_paste (Grid.ofLists [[0,0,0],[0,5,0],[0,0,0]])
      (Sel.ofLists [[[false,false,false],[false,true,false],[false,false,false]]]) 1 0) 0
      [[0,0,0],[0,5,5],[0,0,0]] = true := by decide

/-- C6 counterexample: On grid `[[1,2]]` with both cells selected and
`shift_x = 1`, cell (0,1) is selected and its shifted destination (0,2) is
dropped as out of bounds, yet it does *not* end up erased: the surviving
write from cell (0,0) lands on it, leaving value 1 (not 0). -/
theorem c6_counterexample :
    (cut_paste (Grid.ofLists [[1,2]]) (Sel.ofLists [[[true,true]]]) 1 0).data 0 0 1 = 1 := by
  decide

/-- C6 amended: `cut_paste` zeroes every originally selected cell and
then writes the gathered values to the surviving in-bounds destinations; a
selected cell whose own destination was dropped as out of bounds ends up
zero *provided* it is not itself the surviving destination of another
selected cell. -/
theorem c6_amended (grid : Grid) (selection : Sel) (shift_x shift_y : Int) (i r c : Nat)
    (hsel : ((i, r, c) : Pos) ∈ npWhere selection)
    (_hdrop : shiftValid grid.rows grid.cols shift_x shift_y (i, r, c) = false)
    (h : ∀ p ∈ npWhere selection, shiftValid grid.rows grid.cols shift_x shift_y p = true →
      shiftPos shift_x shift_y p ≠ (i, r, c)) :
    (cut_paste grid selection shift_x shift_y).data i r c = 0 := by
  have hmain := (applyWrites_of_not_mem (writes_miss h)).trans
    (cleared_fn grid selection (i, r, c))
  exact hmain.trans (if_pos hsel)

/-- Witness for C6: on `[[1,2]]` with only cell (0,1) selected and
`shift_x = 1`, the selected cell's destination is dropped and nothing else
writes onto it, so it is erased to 0. -/
theorem c6_witness :
    (cut_paste (Grid.ofLists [[1,2]]) (Sel.ofLists [[[false,true]]]) 1 0).data 0 0 1 = 0 :=
  c6_amended (Grid.ofLists [[1,2]]) (Sel.ofLists [[[false,true]]]) 1 0 0 0 1
    (by decide) (by decide) (by decide)

theorem shiftPos_zero (p : Pos) : shiftPos 0 0 p = p := by
  obtain ⟨i, r, c⟩ := p
  simp [shiftPos]

/-- With shift (0,0) and a mask of the grid's shape, `cut_sum` restores
every cell: the clear writes 0 and the accumulating write adds back the
value gathered before the clear. -/
theorem cut_sum_zero_data (grid : Grid) (selection : Sel)
    (hrows : selection.rows = grid.rows) (hcols : selection.cols = grid.cols) :
    (cut_sum grid selection 0 0).data = fun _ r c => grid.data r c := by
  have hvalid : ∀ p ∈ npWhere selection, shiftValid grid.rows grid.cols 0 0 p = true := by
    intro p hp
    obtain ⟨⟨h1, h2, h3⟩, _⟩ := mem_npWhere.1 hp
    simp only [shiftValid, Bool.and_eq_true, decide_eq_true_eq]
    refine ⟨⟨⟨?_, ?_⟩, ?_⟩, ?_⟩ <;> omega
  have hwrites : ((npWhere selection).filter (shiftValid grid.rows grid.cols 0 0)).map
      (fun p => (shiftPos 0 0 p, (create_grid3d grid selection).fn p))
      = (npWhere selection).map (fun p => (p, (create_grid3d grid selection).fn p)) := by
    rw [List.filter_eq_self.2 hvalid]
    exact List.map_congr_left (fun p _ => by rw [shiftPos_zero])
  funext i r c
  show applyAdds (((npWhere selection).filter (shiftValid grid.rows grid.cols 0 0)).map
      (fun p => (shiftPos 0 0 p, (create_grid3d grid selection).fn p)))
    (applyWrites ((npWhere selection).map fun p => (p, (0 : Int)))
      (create_grid3d grid selection).fn) (i, r, c) = grid.data r c
  rw [hwrites]
  by_cases hq : ((i, r, c) : Pos) ∈ npWhere selection
  · have hfst : (((npWhere selection).map fun p => (p, (create_grid3d grid selection).fn p)).map
        Prod.fst).Nodup := by
      have : ((npWhere selection).map fun p =>
          (p, (create_grid3d grid selection).fn p)).map Prod.fst = npWhere selection := by
        have hcomp : (Prod.fst ∘ fun p : Pos => (p, (create_grid3d grid selection).fn p))
            = id := rfl
        rw [List.map_map, hcomp, List.map_id]
      rw [this]
      exact nodup_npWhere selection
    have hmem : (((i, r, c) : Pos), (create_grid3d grid selection).fn (i, r, c))
        ∈ (npWhere selection).map fun p => (p, (create_grid3d grid selection).fn p) :=
      List.mem_map.2 ⟨(i, r, c), hq, rfl⟩
    rw [applyAdds_of_mem hfst hmem, cleared_fn, if_pos hq, zero_add]
    rfl
  · have hnone : ∀ pv ∈ (npWhere selection).map fun p =>
        (p, (create_grid3d grid selection).fn p), pv.1 ≠ ((i, r, c) : Pos) := by
      intro pv hpv
      obtain ⟨p, hp, rfl⟩ := List.mem_map.1 hpv
      exact fun hpq => hq (hpq ▸ hp)
    rw [applyAdds_of_not_mem hnone, cleared_fn, if_neg hq]
    rfl

/-- C3 counterexample: `copy_sum` with shift (0,0) does not preserve
the layer sum: on grid `[[5]]` with the cell selected, the value is added
onto itself, giving sum 10 against an input sum of 5. -/
theorem c3_counterexample :
    gridSum (Grid.ofLists [[5]]) = 5 ∧
    layerSum (copy_sum (Grid.ofLists [[5]]) (Sel.ofLists [[[true]]]) 0 0) 0 = 10 := by
  decide

/-- C3 amended: For every grid and selection mask (of the grid's
shape), `cut_sum` with shift (0,0) leaves the sum of every output layer
equal to the sum of the input grid (no clipping occurs, values are moved,
none created or destroyed). -/
theorem c3_amended (grid : Grid) (selection : Sel) (i : Nat)
    (hrows : selection.rows = grid.rows) (hcols : selection.cols = grid.cols) :
    layerSum (cut_sum grid selection 0 0) i = gridSum grid := by
  unfold layerSum gridSum
  rw [cut_sum_zero_data grid selection hrows hcols]
  exact rfl

/-- Witness for C3: on `[[1,2],[3,4]]` with a diagonal selection,
`cut_sum` at shift (0,0) keeps the layer sum at 10. -/
theorem c3_witness :
    layerSum (cut_sum (Grid.ofLists [[1,2],[3,4]])
      (Sel.ofLists [[[true,false],[false,true]]]) 0 0) 0
      = gridSum (Grid.ofLists [[1,2],[3,4]]) :=
  c3_amended (Grid.ofLists [[1,2],[3,4]]) (Sel.ofLists [[[true,false],[false,true]]]) 0
    rfl rfl

/-- Embeds `checks.check_integer` (from `dsl/utilities/checks.py`).  Its docstring
says "Returns True if valid, False otherwise", but on an out-of-range value
the code executes `raise Warning(...)` — an actual exception — and the
`return False` after it is dead code.  The embedding therefore returns
`Except.error` with the raised message for out-of-range values (the
`isinstance` branch cannot fire here since every embedded value is an
integer). -/
def check_integer (value minimum maximum : Int) : Except String Bool :=
  if value < minimum ∨ value > maximum then
    Except.error ("Invalid color " ++ toString value ++ " not in range " ++
      toString minimum ++ " to " ++ toString maximum)
  else
    Except.ok true

/-- Embeds `checks.check_num_rotations`: valid rotation counts are 1..3. -/
def check_num_rotations (num_rotations : Int) : Except String Bool :=
  check_integer num_rotations 1 3

/-- Embeds `checks.check_color`: valid colors are 0..200. -/
def check_color (color : Int) : Except String Bool :=
  check_integer color 0 200

/-- The (row, col) pairs of the true cells of one mask layer, in
lexicographic order. -/
def layerPoints (s : Sel) (i : Nat) : List (Nat × Nat) :=
  ((List.range s.rows).flatMap fun r => (List.range s.cols).map fun c => (r, c)).filter
    fun rc => s.data i rc.1 rc.2

/-- Modelled from the spec: `find_bounding_rectangle` lives in
`dsl/utilities/transformation_utilities.py`, which is not among the provided
sources.  Spec §4.2: per layer, the min/max row and min/max col among true
cells (returned here as `some (minRow, maxRow, minCol, maxCol)`, `none` for
an empty layer); the mask form marks every cell inside that inclusive
range. -/
def boundsRect (s : Sel) (i : Nat) : Option (Nat × Nat × Nat × Nat) :=
  match layerPoints s i with
  | [] => none
  | q :: qs => some (qs.foldl
      (fun b rc => (min b.1 rc.1, max b.2.1 rc.1, min b.2.2.1 rc.2, max b.2.2.2 rc.2))
      (q.1, q.1, q.2, q.2))

/-- Modelled from the spec (§4.2): the bounding square expands the narrower
span of the bounding rectangle so both spans equal the larger one, centring
the original span (ties rounding toward the top-left) and sliding the
window back inside the grid when it runs off an edge.  The source helper is
not among the provided sources, and the spec leaves the anchoring "not
specified bit-exactly"; no theorem below depends on the exact anchoring.
Returns `some (top, left, side)`. -/
def boundsSquare (s : Sel) (i : Nat) : Option (Nat × Nat × Nat) :=
  match boundsRect s i with
  | none => none
  | some (a, b, u, v) =>
    let h := b + 1 - a
    let w := v + 1 - u
    let side := max h w
    let a2 := a - (side - h) / 2
    let u2 := u - (side - w) / 2
    let a3 := if a2 + side ≤ s.rows then a2 else s.rows - side
    let u3 := if u2 + side ≤ s.cols then u2 else s.cols - side
    some (a3, u3, side)

/-- Embeds `Transformer.rotate`: build the stacked grid, then validate the rotation
count — for a count outside 1..3 `check_num_rotations` *raises* (see
`check_integer`) before the `== False` comparison is ever made, so the
`return grid_3d` no-op branch is unreachable.  On a valid count, each
layer's bounding square is rotated counterclockwise by `num_rotations`
quarter turns (the pointwise form of the mask assignment
`grid_3d[bounding_square] = np.rot90(grid_3d, k, axes=(1, 2))[rotated_bounding_square]`). -/
def rotate (grid : Grid) (selection : Sel) (num_rotations : Int) :
    Except String Grid3 :=
  let grid_3d := create_grid3d grid selection
  match check_num_rotations num_rotations with
  | Except.error e => Except.error e
  | Except.ok b =>
    if b = false then Except.ok grid_3d
    else Except.ok { grid_3d with data := fun i r c =>
      (match boundsSquare selection i with
      | none => grid_3d.data i r c
      | some (a, u, side) =>
        if a ≤ r ∧ r < a + side ∧ u ≤ c ∧ c < u + side then
          if num_rotations = 1 then
            grid_3d.data i (a + (c - u)) (u + (side - 1 - (r - a)))
          else if num_rotations = 2 then
            grid_3d.data i (a + (side - 1 - (r - a))) (u + (side - 1 - (c - u)))
          else
            grid_3d.data i (a + (side - 1 - (c - u))) (u + (r - a))
        else grid_3d.data i r c) }

/-- C1, code evaluated at the failing inputs: `rotate` with a rotation
count outside {1,2,3} does *not* return the unrotated stack: the range
check in `checks.check_integer` executes `raise Warning(...)`, so the call
raises instead of degrading silently.  (The claim matches the docstring of
`check_integer` — "Returns True if valid, False otherwise" — whose
`return False` is dead code after the raise; the code, not the claim, is
the slip.) -/
theorem c1_rotate_raises :
    rotate (Grid.ofLists [[1]]) (Sel.ofLists [[[true]]]) 0
      = Except.error "Invalid color 0 not in range 1 to 3" ∧
    rotate (Grid.ofLists [[1]]) (Sel.ofLists [[[true]]]) 4
      = Except.error "Invalid color 4 not in range 1 to 3" := by
  constructor <;> rfl

/-- Result of an operator that can return either the untouched 2-D input
grid (rejected input) or a 3-D stack. -/
inductive TResult where
  | g2 (g : Grid)
  | g3 (G : Grid3)

/-- Whether an operator result is a 3-D stack. -/
def TResult.is3D : TResult → Bool
  | TResult.g2 _ => false
  | TResult.g3 _ => true

/-- Embeds `Transformer.mirror_horizontally`: with more than 15 mask columns,
return the 2-D input grid unchanged; otherwise double the canvas to the
right with the column-mirrored grid, zeroing mirrored cells not selected by
the mirrored mask. -/
def mirror_horizontally (grid : Grid) (selection : Sel) : TResult :=
  if selection.cols > 15 then TResult.g2 grid
  else
    let grid_3d := create_grid3d grid selection
    TResult.g3 ⟨selection.n, selection.rows, selection.cols * 2, fun i r c =>
      if c < selection.cols then grid_3d.data i r c
      else if selection.data i r (selection.cols - 1 - (c - selection.cols)) then
        grid_3d.data i r (selection.cols - 1 - (c - selection.cols))
      else 0⟩

/-- Embeds `Transformer.mirror_vertically`: row analogue of `mirror_horizontally`
(precondition on the number of rows). -/
def mirror_vertically (grid : Grid) (selection : Sel) : TResult :=
  if selection.rows > 15 then TResult.g2 grid
  else
    let grid_3d := create_grid3d grid selection
    TResult.g3 ⟨selection.n, selection.rows * 2, selection.cols, fun i r c =>
      if r < selection.rows then grid_3d.data i r c
      else if selection.data i (selection.rows - 1 - (r - selection.rows)) c then
        grid_3d.data i (selection.rows - 1 - (r - selection.rows)) c
      else 0⟩

/-- Embeds `Transformer.duplicate_horizontally`: with more than 15 mask columns,
return the 2-D input grid; otherwise the right half starts all zero and
receives the selected cells verbatim. -/
def duplicate_horizontally (grid : Grid) (selection : Sel) : TResult :=
  if selection.cols > 15 then TResult.g2 grid
  else
    let grid_3d := create_grid3d grid selection
    TResult.g3 ⟨selection.n, selection.rows, selection.cols * 2, fun i r c =>
      if c < selection.cols then grid_3d.data i r c
      else if selection.data i r (c - selection.cols) then
        grid_3d.data i r (c - selection.cols)
      else 0⟩

/-- Embeds `Transformer.duplicate_vertically`: row analogue of
`duplicate_horizontally`. -/
def duplicate_vertically (grid : Grid) (selection : Sel) : TResult :=
  if selection.rows > 15 then TResult.g2 grid
  else
    let grid_3d := create_grid3d grid selection
    TResult.g3 ⟨selection.n, selection.rows * 2, selection.cols, fun i r c =>
      if r < selection.rows then grid_3d.data i r c
      else if selection.data i (r - selection.rows) c then
        grid_3d.data i (r - selection.rows) c
      else 0⟩

/-- C4: The four extension operators reject oversized inputs by
returning the 2-D input grid unchanged: `mirror_horizontally` and
`duplicate_horizontally` when the mask has more than 15 columns,
`mirror_vertically` and `duplicate_vertically` when it has more than 15
rows. -/
theorem c4_extension_precondition (grid : Grid) (selection : Sel) :
    (selection.cols > 15 → mirror_horizontally grid selection = TResult.g2 grid) ∧
    (selection.rows > 15 → mirror_vertically grid selection = TResult.g2 grid) ∧
    (selection.cols > 15 → duplicate_horizontally grid selection = TResult.g2 grid) ∧
    (selection.rows > 15 → duplicate_vertically grid selection = TResult.g2 grid) := by
  refine ⟨fun h => ?_, fun h => ?_, fun h => ?_, fun h => ?_⟩
  · unfold mirror_horizontally
    rw [if_pos h]
  · unfold mirror_vertically
    rw [if_pos h]
  · unfold duplicate_horizontally
    rw [if_pos h]
  · unfold duplicate_vertically
    rw [if_pos h]

/-- Witness for C4: a 16×16 mask is rejected by all four extension
operators. -/
theorem c4_witness :
    mirror_horizontally (Grid.ofLists [[1]]) (⟨1, 16, 16, fun _ _ _ => false⟩ : Sel)
      = TResult.g2 (Grid.ofLists [[1]]) ∧
    mirror_vertically (Grid.ofLists [[1]]) (⟨1, 16, 16, fun _ _ _ => false⟩ : Sel)
      = TResult.g2 (Grid.ofLists [[1]]) ∧
    duplicate_horizontally (Grid.ofLists [[1]]) (⟨1, 16, 16, fun _ _ _ => false⟩ : Sel)
      = TResult.g2 (Grid.ofLists [[1]]) ∧
    duplicate_vertically (Grid.ofLists [[1]]) (⟨1, 16, 16, fun _ _ _ => false⟩ : Sel)
      = TResult.g2 (Grid.ofLists [[1]]) :=
  have h := c4_extension_precondition (Grid.ofLists [[1]]) ⟨1, 16, 16, fun _ _ _ => false⟩
  ⟨h.1 (by decide), h.2.1 (by decide), h.2.2.1 (by decide), h.2.2.2 (by decide)⟩

/-- In-bounding-rectangle test, derived from the modelled
`find_bounding_rectangle` layer bounds. -/
def inRect (s : Sel) (i r c : Nat) : Bool :=
  match boundsRect s i with
  | none => false
  | some (a, b, u, v) =>
    decide (a ≤ r) && decide (r ≤ b) && decide (u ≤ c) && decide (c ≤ v)

/-- Embeds `Transformer.fill_bounding_rectangle_with_color`: validate the color —
`check_color` raises for an out-of-palette value — then color every cell of
each layer's bounding rectangle that is not selected.  The `return grid`
branch (which would return the 2-D grid) is reachable only if `check_color`
returned `False`, which its code never does: it raises instead. -/
def fill_bounding_rectangle_with_color (grid : Grid) (selection : Sel) (color : Int) :
    Except String TResult :=
  match check_color color with
  | Except.error e => Except.error e
  | Except.ok b =>
    if b = false then Except.ok (TResult.g2 grid)
    else
      let grid_3d := create_grid3d grid selection
      Except.ok (TResult.g3 { grid_3d with data := fun i r c =>
        (if inRect selection i r c && !(selection.data i r c) then color
        else grid_3d.data i r c) })

/-- Whether an operator result is a successfully returned 3-D stack. -/
def exceptIs3D : Except String TResult → Bool
  | Except.ok t => t.is3D
  | Except.error _ => false

/-- C9 counterexample: Not every operator returns a 3-D stack on every
input: `mirror_horizontally` on a mask with 16 columns returns the 2-D
input grid, not a 3-D array. -/
theorem c9_counterexample :
    (mirror_horizontally (Grid.ofLists [[1]]) (⟨1, 1, 16, fun _ _ _ => false⟩ : Sel)).is3D
      = false := by
  decide

/-- C9 amended: Each operator returns a 3-D stack on accepted inputs;
on rejected inputs, extension operators with extent above 15 return the 2-D
input grid unchanged, and fill operators given an out-of-palette color
raise (propagating the `Warning` from `check_color`) instead of
returning. -/
theorem c9_amended (grid : Grid) (selection : Sel) (color : Int) :
    (selection.cols ≤ 15 → (mirror_horizontally grid selection).is3D = true) ∧
    (selection.cols > 15 → mirror_horizontally grid selection = TResult.g2 grid) ∧
    (check_color color = Except.ok true →
      exceptIs3D (fill_bounding_rectangle_with_color grid selection color) = true) ∧
    (∀ e, check_color color = Except.error e →
      fill_bounding_rectangle_with_color grid selection color = Except.error e) := by
  refine ⟨fun h => ?_, fun h => ?_, fun h => ?_, fun e h => ?_⟩
  · unfold mirror_horizontally
    rw [if_neg (by omega : ¬ selection.cols > 15)]
    rfl
  · unfold mirror_horizontally
    rw [if_pos h]
  · unfold fill_bounding_rectangle_with_color
    rw [h]
    rfl
  · unfold fill_bounding_rectangle_with_color
    rw [h]

/-- Witness for C9: a 1-column mask is accepted by `mirror_horizontally`;
color 5 is accepted and color 300 rejected by
`fill_bounding_rectangle_with_color`. -/
theorem c9_witness :
    (mirror_horizontally (Grid.ofLists [[1]]) (Sel.ofLists [[[false]]])).is3D = true ∧
    exceptIs3D (fill_bounding_rectangle_with_color (Grid.ofLists [[1]])
      (Sel.ofLists [[[false]]]) 5) = true ∧
    fill_bounding_rectangle_with_color (Grid.ofLists [[1]]) (Sel.ofLists [[[false]]]) 300
      = Except.error "Invalid color 300 not in range 0 to 200" := by
  refine ⟨?_, ?_, ?_⟩
  · exact (c9_amended (Grid.ofLists [[1]]) (Sel.ofLists [[[false]]]) 5).1 (by decide)
  · exact (c9_amended (Grid.ofLists [[1]]) (Sel.ofLists [[[false]]]) 5).2.2.1 rfl
  · exact (c9_amended (Grid.ofLists [[1]]) (Sel.ofLists [[[false]]]) 300).2.2.2
      "Invalid color 300 not in range 0 to 200" rfl

/-- Modelled from the spec: `ColorSelector.mostcolor` lives in
`dsl/color_select.py`, which is not among the provided sources.  Spec §4.8:
"identify the most frequent color in the grid (background)".  Tie-breaking
is not specified; this model keeps the earlier cell value (in row-major
order) on ties.  Only the fact that it depends on the grid alone matters
below. -/
def mostcolor (grid : Grid) : Int :=
  let cells := (List.range grid.rows).flatMap fun r =>
    (List.range grid.cols).map fun c => grid.data r c
  cells.foldl (fun best v => if cells.count v > cells.count best then v else best) 0

/-- Embeds `Transformer.change_background_color`: recolor, in every layer, every
cell equal to the grid's most frequent color; then validate the new color —
`check_color` raises on an invalid one, and both `return grid3d` branches
return the already recolored stack. -/
def change_background_color (grid : Grid) (selection : Sel) (new_color : Int) :
    Except String Grid3 :=
  let grid3d := create_grid3d grid selection
  let background_color := mostcolor grid
  let recolored := { grid3d with data := fun i r c =>
    (if grid3d.data i r c = background_color then new_color else grid3d.data i r c) }
  match check_color new_color with
  | Except.error e => Except.error e
  | Except.ok _ => Except.ok recolored

/-- C10: `change_background_color` does not depend on the mask's
contents: for a valid new color, two mask stacks with the same number of
layers give equal outputs, and every layer recolors exactly the cells whose
value equals the grid's most frequent color. -/
theorem c10_mask_independence (grid : Grid) (new_color : Int) (s1 s2 : Sel)
    (hcolor : check_color new_color = Except.ok true) (hn : s1.n = s2.n) :
    change_background_color grid s1 new_color = change_background_color grid s2 new_color ∧
    (∀ G, change_background_color grid s1 new_color = Except.ok G →
      ∀ i r c, G.data i r c =
        (if grid.data r c = mostcolor grid then new_color else grid.data r c)) := by
  have key : ∀ s : Sel, change_background_color grid s new_color
      = Except.ok (⟨s.n, grid.rows, grid.cols, fun _ r c =>
          if grid.data r c = mostcolor grid then new_color
          else grid.data r c⟩ : Grid3) := by
    intro s
    unfold change_background_color
    rw [hcolor]
    rfl
  constructor
  · rw [key s1, key s2, hn]
  · intro G hG i r c
    rw [key s1] at hG
    cases hG
    rfl

/-- Witness for C10: two different single-layer masks over `[[1,1],[1,2]]`
(background color 1) give the same recolored stack for new color 3. -/
theorem c10_witness :
    change_background_color (Grid.ofLists [[1,1],[1,2]])
      (Sel.ofLists [[[true,false],[false,false]]]) 3
      = change_background_color (Grid.ofLists [[1,1],[1,2]])
        (Sel.ofLists [[[false,false],[false,true]]]) 3 :=
  (c10_mask_independence (Grid.ofLists [[1,1],[1,2]]) 3
    (Sel.ofLists [[[true,false],[false,false]]])
    (Sel.ofLists [[[false,false],[false,true]]]) rfl rfl).1

/-- The write list realising the flip-vertical mask assignment
`grid_3d[rect] = np.flip(grid_3d, axis=1)[flipped_rect]` for one layer
whose bounding rectangle is `some (a, b, u, v)`.  Both boolean masks are
solid rectangles of the same size, so the assignment pairs their cells in
lexicographic order: the cell at `(a + x, u + y)` of the rectangle receives
the row-flipped grid's value at the matching cell `(R - 1 - b + x, u + y)`
of the row-flipped rectangle, which is the original grid's value at
`(b - x, u + y)`. -/
def flipvWrites (g3 : Grid3) (bounds : Option (Nat × Nat × Nat × Nat)) (i : Nat) :
    List (Pos × Int) :=
  match bounds with
  | none => []
  | some (a, b, u, v) =>
    (List.range (b + 1 - a)).flatMap fun x =>
      (List.range (v + 1 - u)).map fun y =>
        ((((i, a + x, u + y)) : Pos), g3.data i (b - x) (u + y))

/-- The write list realising the flip-horizontal mask assignment
`grid_3d[rect] = np.flip(grid_3d, axis=2)[flipped_rect]`: the cell at
`(a + x, u + y)` receives the original grid's value at `(a + x, v - y)`. -/
def fliphWrites (g3 : Grid3) (bounds : Option (Nat × Nat × Nat × Nat)) (i : Nat) :
    List (Pos × Int) :=
  match bounds with
  | none => []
  | some (a, b, u, v) =>
    (List.range (b + 1 - a)).flatMap fun x =>
      (List.range (v + 1 - u)).map fun y =>
        ((((i, a + x, u + y)) : Pos), g3.data i (a + x) (v - y))

/-- Embeds `Transformer.flipv`: flip each layer's bounding rectangle upside down;
cells outside the rectangle are untouched. -/
def flipv (grid : Grid) (selection : Sel) : Grid3 :=
  let grid_3d := create_grid3d grid selection
  { grid_3d with data := fun i r c =>
      applyWrites ((List.range selection.n).flatMap fun j =>
        flipvWrites grid_3d (boundsRect selection j) j) grid_3d.fn (i, r, c) }

/-- Embeds `Transformer.fliph`: mirror each layer's bounding rectangle left-right;
cells outside the rectangle are untouched. -/
def fliph (grid : Grid) (selection : Sel) : Grid3 :=
  let grid_3d := create_grid3d grid selection
  { grid_3d with data := fun i r c =>
      applyWrites ((List.range selection.n).flatMap fun j =>
        fliphWrites grid_3d (boundsRect selection j) j) grid_3d.fn (i, r, c) }

theorem nodup_rectPositions (i a u h w : Nat) :
    ((List.range h).flatMap fun x => (List.range w).map fun y =>
      (((i, a + x, u + y)) : Pos)).Nodup := by
  apply nodup_flatMap_tagged _ _ (fun p : Pos => p.2.1 - a) (List.nodup_range h)
  · intro x _
    refine (List.nodup_range w).map_on ?_
    intro y1 _ y2 _ hq
    have h2 := congrArg (fun p : Pos => p.2.2) hq
    simp only at h2
    omega
  · intro x _ p hp
    simp only [List.mem_map] at hp
    obtain ⟨y, _, rfl⟩ := hp
    simp

theorem nodup_fst_rectWrites (i a u h w : Nat) (val : Nat → Nat → Int) :
    (((List.range h).flatMap fun x => (List.range w).map fun y =>
      ((((i, a + x, u + y)) : Pos), val x y)).map Prod.fst).Nodup := by
  have hmap : (((List.range h).flatMap fun x => (List.range w).map fun y =>
      ((((i, a + x, u + y)) : Pos), val x y)).map Prod.fst)
      = (List.range h).flatMap fun x => (List.range w).map fun y =>
        (((i, a + x, u + y)) : Pos) := by
    rw [List.map_flatMap]
    congr 1
    funext x
    rw [List.map_map]
    rfl
  rw [hmap]
  exact nodup_rectPositions i a u h w

theorem flipvWrites_tag {g3 : Grid3} {bounds : Option (Nat × Nat × Nat × Nat)} {j : Nat}
    {pv : Pos × Int} (hpv : pv ∈ flipvWrites g3 bounds j) : pv.1.1 = j := by
  cases bounds with
  | none => simp [flipvWrites] at hpv
  | some t =>
    obtain ⟨a, b, u, v⟩ := t
    simp only [flipvWrites, List.mem_flatMap, List.mem_map, List.mem_range] at hpv
    obtain ⟨x, _, y, _, rfl⟩ := hpv
    rfl

theorem fliphWrites_tag {g3 : Grid3} {bounds : Option (Nat × Nat × Nat × Nat)} {j : Nat}
    {pv : Pos × Int} (hpv : pv ∈ fliphWrites g3 bounds j) : pv.1.1 = j := by
  cases bounds with
  | none => simp [fliphWrites] at hpv
  | some t =>
    obtain ⟨a, b, u, v⟩ := t
    simp only [fliphWrites, List.mem_flatMap, List.mem_map, List.mem_range] at hpv
    obtain ⟨x, _, y, _, rfl⟩ := hpv
    rfl

theorem nodup_flipvW (g3 : Grid3) (s : Sel) :
    (((List.range s.n).flatMap fun j => flipvWrites g3 (boundsRect s j) j).map
      Prod.fst).Nodup := by
  rw [List.map_flatMap]
  apply nodup_flatMap_tagged _ _ (fun p : Pos => p.1) (List.nodup_range s.n)
  · intro j _
    cases hb : boundsRect s j with
    | none => simp [flipvWrites]
    | some t =>
      obtain ⟨a, b, u, v⟩ := t
      exact nodup_fst_rectWrites j a u (b + 1 - a) (v + 1 - u) _
  · intro j _ p hp
    simp only [List.mem_map] at hp
    obtain ⟨pv, hpv, rfl⟩ := hp
    exact flipvWrites_tag hpv

theorem nodup_fliphW (g3 : Grid3) (s : Sel) :
    (((List.range s.n).flatMap fun j => fliphWrites g3 (boundsRect s j) j).map
      Prod.fst).Nodup := by
  rw [List.map_flatMap]
  apply nodup_flatMap_tagged _ _ (fun p : Pos => p.1) (List.nodup_range s.n)
  · intro j _
    cases hb : boundsRect s j with
    | none => simp [fliphWrites]
    | some t =>
      obtain ⟨a, b, u, v⟩ := t
      exact nodup_fst_rectWrites j a u (b + 1 - a) (v + 1 - u) _
  · intro j _ p hp
    simp only [List.mem_map] at hp
    obtain ⟨pv, hpv, rfl⟩ := hp
    exact fliphWrites_tag hpv

theorem flipv_data_none (grid : Grid) (s : Sel) (i r c : Nat)
    (hb : boundsRect s i = none) :
    (flipv grid s).data i r c = grid.data r c := by
  apply applyWrites_of_not_mem
  intro pv hpv
  simp only [List.mem_flatMap, List.mem_range] at hpv
  obtain ⟨j, hj, hpvj⟩ := hpv
  by_cases hij : j = i
  · subst hij
    rw [hb] at hpvj
    simp [flipvWrites] at hpvj
  · have htag := flipvWrites_tag hpvj
    intro he
    exact hij (by rw [← htag, he])

theorem flipv_data_in (grid : Grid) (s : Sel) (i r c a b u v : Nat)
    (hi : i < s.n) (hb : boundsRect s i = some (a, b, u, v))
    (hra : a ≤ r) (hrb : r ≤ b) (hcu : u ≤ c) (hcv : c ≤ v) :
    (flipv grid s).data i r c = grid.data (a + b - r) c := by
  have hx : a + (r - a) = r := by omega
  have hy : u + (c - u) = c := by omega
  have hmem : ((((i, r, c)) : Pos), (create_grid3d grid s).data i (b - (r - a)) c)
      ∈ (List.range s.n).flatMap fun j =>
        flipvWrites (create_grid3d grid s) (boundsRect s j) j := by
    apply List.mem_flatMap.2
    refine ⟨i, List.mem_range.2 hi, ?_⟩
    rw [hb]
    simp only [flipvWrites, List.mem_flatMap, List.mem_map, List.mem_range]
    refine ⟨r - a, by omega, c - u, by omega, ?_⟩
    rw [hx, hy]
  have hfinal : (create_grid3d grid s).data i (b - (r - a)) c = grid.data (a + b - r) c := by
    have hsub : b - (r - a) = a + b - r := by omega
    rw [hsub]
    rfl
  exact (applyWrites_of_mem (nodup_flipvW (create_grid3d grid s) s) hmem).trans hfinal

theorem flipv_data_out (grid : Grid) (s : Sel) (i r c a b u v : Nat)
    (hb : boundsRect s i = some (a, b, u, v))
    (hout : ¬(a ≤ r ∧ r ≤ b ∧ u ≤ c ∧ c ≤ v)) :
    (flipv grid s).data i r c = grid.data r c := by
  apply applyWrites_of_not_mem
  intro pv hpv
  simp only [List.mem_flatMap, List.mem_range] at hpv
  obtain ⟨j, hj, hpvj⟩ := hpv
  by_cases hij : j = i
  · subst hij
    rw [hb] at hpvj
    simp only [flipvWrites, List.mem_flatMap, List.mem_map, List.mem_range] at hpvj
    obtain ⟨x, hx, y, hy, rfl⟩ := hpvj
    intro he
    have h1 := congrArg (fun p : Pos => p.2.1) he
    have h2 := congrArg (fun p : Pos => p.2.2) he
    simp only at h1 h2
    exact hout ⟨by omega, by omega, by omega, by omega⟩
  · have htag := flipvWrites_tag hpvj
    intro he
    exact hij (by rw [← htag, he])

theorem fliph_data_none (grid : Grid) (s : Sel) (i r c : Nat)
    (hb : boundsRect s i = none) :
    (fliph grid s).data i r c = grid.data r c := by
  apply applyWrites_of_not_mem
  intro pv hpv
  simp only [List.mem_flatMap, List.mem_range] at hpv
  obtain ⟨j, hj, hpvj⟩ := hpv
  by_cases hij : j = i
  · subst hij
    rw [hb] at hpvj
    simp [fliphWrites] at hpvj
  · have htag := fliphWrites_tag hpvj
    intro he
    exact hij (by rw [← htag, he])

theorem fliph_data_in (grid : Grid) (s : Sel) (i r c a b u v : Nat)
    (hi : i < s.n) (hb : boundsRect s i = some (a, b, u, v))
    (hra : a ≤ r) (hrb : r ≤ b) (hcu : u ≤ c) (hcv : c ≤ v) :
    (fliph grid s).data i r c = grid.data r (u + v - c) := by
  have hx : a + (r - a) = r := by omega
  have hy : u + (c - u) = c := by omega
  have hmem : ((((i, r, c)) : Pos), (create_grid3d grid s).data i r (v - (c - u)))
      ∈ (List.range s.n).flatMap fun j =>
        fliphWrites (create_grid3d grid s) (boundsRect s j) j := by
    apply List.mem_flatMap.2
    refine ⟨i, List.mem_range.2 hi, ?_⟩
    rw [hb]
    simp only [fliphWrites, List.mem_flatMap, List.mem_map, List.mem_range]
    refine ⟨r - a, by omega, c - u, by omega, ?_⟩
    rw [hx, hy]
  have hfinal : (create_grid3d grid s).data i r (v - (c - u)) = grid.data r (u + v - c) := by
    have hsub : v - (c - u) = u + v - c := by omega
    rw [hsub]
    rfl
  exact (applyWrites_of_mem (nodup_fliphW (create_grid3d grid s) s) hmem).trans hfinal

theorem fliph_data_out (grid : Grid) (s : Sel) (i r c a b u v : Nat)
    (hb : boundsRect s i = some (a, b, u, v))
    (hout : ¬(a ≤ r ∧ r ≤ b ∧ u ≤ c ∧ c ≤ v)) :
    (fliph grid s).data i r c = grid.data r c := by
  apply applyWrites_of_not_mem
  intro pv hpv
  simp only [List.mem_flatMap, List.mem_range] at hpv
  obtain ⟨j, hj, hpvj⟩ := hpv
  by_cases hij : j = i
  · subst hij
    rw [hb] at hpvj
    simp only [fliphWrites, List.mem_flatMap, List.mem_map, List.mem_range] at hpvj
    obtain ⟨x, hx, y, hy, rfl⟩ := hpvj
    intro he
    have h1 := congrArg (fun p : Pos => p.2.1) he
    have h2 := congrArg (fun p : Pos => p.2.2) he
    simp only at h1 h2
    exact hout ⟨by omega, by omega, by omega, by omega⟩
  · have htag := fliphWrites_tag hpvj
    intro he
    exact hij (by rw [← htag, he])

/-- Layer `i` of a stack, as a 2-D grid. -/
def layerGrid (G : Grid3) (i : Nat) : Grid :=
  ⟨G.rows, G.cols, fun r c => G.data i r c⟩

/-- A single layer of a mask stack, as a 1-layer stack. -/
def selLayer (s : Sel) (i : Nat) : Sel :=
  ⟨1, s.rows, s.cols, fun _ r c => s.data i r c⟩

/-- C7: Flip is an involution on the bounding rectangle: re-applying
`flipv` to any layer of `flipv grid selection`, with that layer's mask,
restores the original grid at every cell (cells inside the bounding
rectangle are flipped back, cells outside were never changed); likewise for
`fliph`. -/
theorem c7_flip_involution (grid : Grid) (selection : Sel) (i r c : Nat)
    (_hrows : selection.rows = grid.rows) (_hcols : selection.cols = grid.cols)
    (hi : i < selection.n) :
    (flipv (layerGrid (flipv grid selection) i) (selLayer selection i)).data 0 r c
      = grid.data r c ∧
    (fliph (layerGrid (fliph grid selection) i) (selLayer selection i)).data 0 r c
      = grid.data r c := by
  have hbeq : boundsRect (selLayer selection i) 0 = boundsRect selection i := rfl
  constructor
  · cases hb : boundsRect selection i with
    | none =>
      rw [flipv_data_none _ _ _ _ _ (hbeq.trans hb)]
      exact flipv_data_none grid selection i r c hb
    | some t =>
      obtain ⟨a, b, u, v⟩ := t
      by_cases hin : a ≤ r ∧ r ≤ b ∧ u ≤ c ∧ c ≤ v
      · obtain ⟨h1, h2, h3, h4⟩ := hin
        rw [flipv_data_in (layerGrid (flipv grid selection) i) (selLayer selection i)
          0 r c a b u v Nat.zero_lt_one (hbeq.trans hb) h1 h2 h3 h4]
        show (flipv grid selection).data i (a + b - r) c = grid.data r c
        rw [flipv_data_in grid selection i (a + b - r) c a b u v hi hb
          (by omega) (by omega) h3 h4]
        have hr2 : a + b - (a + b - r) = r := by omega
        rw [hr2]
      · rw [flipv_data_out (layerGrid (flipv grid selection) i) (selLayer selection i)
          0 r c a b u v (hbeq.trans hb) hin]
        show (flipv grid selection).data i r c = grid.data r c
        exact flipv_data_out grid selection i r c a b u v hb hin
  · cases hb : boundsRect selection i with
    | none =>
      rw [fliph_data_none _ _ _ _ _ (hbeq.trans hb)]
      exact fliph_data_none grid selection i r c hb
    | some t =>
      obtain ⟨a, b, u, v⟩ := t
      by_cases hin : a ≤ r ∧ r ≤ b ∧ u ≤ c ∧ c ≤ v
      · obtain ⟨h1, h2, h3, h4⟩ := hin
        rw [fliph_data_in (layerGrid (fliph grid selection) i) (selLayer selection i)
          0 r c a b u v Nat.zero_lt_one (hbeq.trans hb) h1 h2 h3 h4]
        show (fliph grid selection).data i r (u + v - c) = grid.data r c
        rw [fliph_data_in grid selection i r (u + v - c) a b u v hi hb
          h1 h2 (by omega) (by omega)]
        have hc2 : u + v - (u + v - c) = c := by omega
        rw [hc2]
      · rw [fliph_data_out (layerGrid (fliph grid selection) i) (selLayer selection i)
          0 r c a b u v (hbeq.trans hb) hin]
        show (fliph grid selection).data i r c = grid.data r c
        exact fliph_data_out grid selection i r c a b u v hb hin

/-- Witness for C7: a 2×2 grid with a diagonal selection (bounding
rectangle the whole grid); double flip restores the probed cell. -/
theorem c7_witness :
    (flipv (layerGrid (flipv (Grid.ofLists [[1,2],[3,4]])
        (Sel.ofLists [[[true,false],[false,true]]])) 0)
      (selLayer (Sel.ofLists [[[true,false],[false,true]]]) 0)).data 0 0 1 = 2 ∧
    (fliph (layerGrid (fliph (Grid.ofLists [[1,2],[3,4]])
        (Sel.ofLists [[[true,false],[false,true]]])) 0)
      (selLayer (Sel.ofLists [[[true,false],[false,true]]]) 0)).data 0 0 1 = 2 :=
  c7_flip_involution (Grid.ofLists [[1,2],[3,4]])
    (Sel.ofLists [[[true,false],[false,true]]]) 0 0 1 rfl rfl (by decide)

/-- Ceiling division of integers (`np.ceil(a / h)` for positive `h`). -/
def ceilDiv (a h : Int) : Int := -(-a / h)

/-- Embeds `first_rows`/`last_rows` of `copy_paste_vertically` for one layer:
the first and last row containing a selected cell, `(-1, -1)` when the
layer is empty (the initialisation values survive). -/
def firstLastRows (s : Sel) (i : Nat) : Int × Int :=
  let rs := (List.range s.rows).filter fun r => (List.range s.cols).any fun c => s.data i r c
  match rs with
  | [] => (-1, -1)
  | r :: _ => ((r : Int), ((rs.getLastD r : Nat) : Int))

/-- Embeds `first_cols`/`last_cols` of `copy_paste_horizontally` for one layer. -/
def firstLastCols (s : Sel) (i : Nat) : Int × Int :=
  let cs := (List.range s.cols).filter fun c => (List.range s.rows).any fun r => s.data i r c
  match cs with
  | [] => (-1, -1)
  | c :: _ => ((c : Int), ((cs.getLastD c : Nat) : Int))

/-- The per-layer pasting loop of `copy_paste_vertically`: `count`
applications of `copy_paste` with vertical shifts `dir*(k+1)*h`,
`k = 0 .. count-1`, each on the previous result (the working layer is
re-wrapped as a 1-layer stack each time; the Layer Stacker leaves a
matching 1-layer input unchanged). -/
def tileIterV (selL : Sel) (h dir : Int) (count : Nat) (g2 : Grid) : Grid :=
  (List.range count).foldl
    (fun cur k => layerGrid (copy_paste cur selL 0 (dir * ((k : Int) + 1) * h)) 0) g2

/-- The per-layer pasting loop of `copy_paste_horizontally` (horizontal
shifts). -/
def tileIterH (selL : Sel) (h dir : Int) (count : Nat) (g2 : Grid) : Grid :=
  (List.range count).foldl
    (fun cur k => layerGrid (copy_paste cur selL (dir * ((k : Int) + 1) * h) 0) 0) g2

/-- Embeds `Transformer.copy_paste_vertically`: per layer, the selection height
`last - first + 1` is the tile period; paste the selection upwards
`ceil(first / height)` times, then downwards
`ceil((rows - last - 1) / height)` times.  A layer whose computed height is
not positive is skipped (kept as the stacked grid).  For an all-false layer
`first = last = -1`, so the height is 1 (not 0): the layer is *not*
skipped, but its `ceil(-1/1)` upward iterations truncate to zero and its
downward iterations call `copy_paste` with an empty selection, a no-op. -/
def copy_paste_vertically (grid : Grid) (selection : Sel) : Grid3 :=
  let grid_3d := create_grid3d grid selection
  { grid_3d with data := fun i r c =>
      (let fl := firstLastRows selection i
      let h := fl.2 - fl.1 + 1
      if h ≤ 0 then grid_3d.data i r c
      else
        (tileIterV (selLayer selection i) h 1
          ((ceilDiv ((grid.rows : Int) - fl.2 - 1) h).toNat)
          (tileIterV (selLayer selection i) h (-1) ((ceilDiv fl.1 h).toNat)
            (layerGrid grid_3d i))).data r c) }

/-- Embeds `Transformer.copy_paste_horizontally`: column analogue of
`copy_paste_vertically` (leftwards then rightwards). -/
def copy_paste_horizontally (grid : Grid) (selection : Sel) : Grid3 :=
  let grid_3d := create_grid3d grid selection
  { grid_3d with data := fun i r c =>
      (let fl := firstLastCols selection i
      let h := fl.2 - fl.1 + 1
      if h ≤ 0 then grid_3d.data i r c
      else
        (tileIterH (selLayer selection i) h 1
          ((ceilDiv ((grid.cols : Int) - fl.2 - 1) h).toNat)
          (tileIterH (selLayer selection i) h (-1) ((ceilDiv fl.1 h).toNat)
            (layerGrid grid_3d i))).data r c) }

theorem copy_paste_empty (cur : Grid) (selL : Sel) (sx sy : Int)
    (hempty : npWhere selL = []) :
    layerGrid (copy_paste cur selL sx sy) 0 = cur := by
  unfold copy_paste layerGrid
  rw [hempty]
  rfl

theorem foldl_const {α β : Type} (f : α → β → α) (l : List β) (init : α)
    (h : ∀ a b, f a b = a) : l.foldl f init = init := by
  induction l generalizing init with
  | nil => rfl
  | cons x xs ih =>
    rw [List.foldl_cons, h init x]
    exact ih init

theorem tileIterV_empty (selL : Sel) (h dir : Int) (count : Nat) (g2 : Grid)
    (hempty : npWhere selL = []) : tileIterV selL h dir count g2 = g2 := by
  unfold tileIterV
  apply foldl_const
  intro a k
  exact copy_paste_empty a selL 0 (dir * ((k : Int) + 1) * h) hempty

theorem tileIterH_empty (selL : Sel) (h dir : Int) (count : Nat) (g2 : Grid)
    (hempty : npWhere selL = []) : tileIterH selL h dir count g2 = g2 := by
  unfold tileIterH
  apply foldl_const
  intro a k
  exact copy_paste_empty a selL (dir * ((k : Int) + 1) * h) 0 hempty

theorem npWhere_selLayer_empty (s : Sel) (i : Nat)
    (hempty : ∀ r c, r < s.rows → c < s.cols → s.data i r c = false) :
    npWhere (selLayer s i) = [] := by
  unfold npWhere
  apply List.filter_eq_nil_iff.2
  intro p hp
  obtain ⟨h1, h2, h3⟩ := mem_allTriples.1 hp
  simp only [selLayer] at h2 h3 ⊢
  simp [hempty p.2.1 p.2.2 h2 h3]

theorem firstLastRows_empty (s : Sel) (i : Nat)
    (hempty : ∀ r c, r < s.rows → c < s.cols → s.data i r c = false) :
    firstLastRows s i = (-1, -1) := by
  unfold firstLastRows
  have hnil : (List.range s.rows).filter
      (fun r => (List.range s.cols).any fun c => s.data i r c) = [] := by
    apply List.filter_eq_nil_iff.2
    intro r hr
    rw [List.mem_range] at hr
    intro hany
    rw [List.any_eq_true] at hany
    obtain ⟨c, hc, hdata⟩ := hany
    rw [List.mem_range] at hc
    rw [hempty r c hr hc] at hdata
    simp at hdata
  rw [hnil]

theorem firstLastCols_empty (s : Sel) (i : Nat)
    (hempty : ∀ r c, r < s.rows → c < s.cols → s.data i r c = false) :
    firstLastCols s i = (-1, -1) := by
  unfold firstLastCols
  have hnil : (List.range s.cols).filter
      (fun c => (List.range s.rows).any fun r => s.data i r c) = [] := by
    apply List.filter_eq_nil_iff.2
    intro c hc
    rw [List.mem_range] at hc
    intro hany
    rw [List.any_eq_true] at hany
    obtain ⟨r, hr, hdata⟩ := hany
    rw [List.mem_range] at hr
    rw [hempty r c hr hc] at hdata
    simp at hdata
  rw [hnil]

/-- **C8**  A mask layer with an empty selection leaves the corresponding
output layer of `copy_paste_vertically` and `copy_paste_horizontally` equal
to the input grid (the code reaches this through height 1, zero upward
iterations and empty-selection `copy_paste` no-ops, not through the
`height ≤ 0` skip-guard), and layers are processed independently: the
output layer depends on the mask stack only through that layer's contents
(and the shared extents). -/
theorem c8_empty_layer (grid : Grid) (selection : Sel) (i : Nat)
    (hempty : ∀ r c, r < selection.rows → c < selection.cols →
      selection.data i r c = false) :
    (∀ r c, (copy_paste_vertically grid selection).data i r c = grid.data r c) ∧
    (∀ r c, (copy_paste_horizontally grid selection).data i r c = grid.data r c) ∧
    (∀ s2 : Sel, s2.rows = selection.rows → s2.cols = selection.cols →
      (∀ r c, s2.data i r c = selection.data i r c) →
      ∀ r c, (copy_paste_vertically grid s2).data i r c
        = (copy_paste_vertically grid selection).data i r c) := by
  have hnp : npWhere (selLayer selection i) = [] :=
    npWhere_selLayer_empty selection i hempty
  have hfl : firstLastRows selection i = (-1, -1) :=
    firstLastRows_empty selection i hempty
  have hfc : firstLastCols selection i = (-1, -1) :=
    firstLastCols_empty selection i hempty
  refine ⟨fun r c => ?_, fun r c => ?_, fun s2 hr2 hc2 hagree r c => ?_⟩
  · show (let fl := firstLastRows selection i
      let h := fl.2 - fl.1 + 1
      if h ≤ 0 then (create_grid3d grid selection).data i r c
      else
        (tileIterV (selLayer selection i) h 1
          ((ceilDiv ((grid.rows : Int) - fl.2 - 1) h).toNat)
          (tileIterV (selLayer selection i) h (-1) ((ceilDiv fl.1 h).toNat)
            (layerGrid (create_grid3d grid selection) i))).data r c) = grid.data r c
    rw [hfl]
    show (tileIterV (selLayer selection i) 1 1
        ((ceilDiv ((grid.rows : Int) - (-1) - 1) 1).toNat)
        (layerGrid (create_grid3d grid selection) i)).data r c = grid.data r c
    rw [tileIterV_empty _ _ _ _ _ hnp]
    rfl
  · show (let fl := firstLastCols selection i
      let h := fl.2 - fl.1 + 1
      if h ≤ 0 then (create_grid3d grid selection).data i r c
      else
        (tileIterH (selLayer selection i) h 1
          ((ceilDiv ((grid.cols : Int) - fl.2 - 1) h).toNat)
          (tileIterH (selLayer selection i) h (-1) ((ceilDiv fl.1 h).toNat)
            (layerGrid (create_grid3d grid selection) i))).data r c) = grid.data r c
    rw [hfc]
    show (tileIterH (selLayer selection i) 1 1
        ((ceilDiv ((grid.cols : Int) - (-1) - 1) 1).toNat)
        (layerGrid (create_grid3d grid selection) i)).data r c = grid.data r c
    rw [tileIterH_empty _ _ _ _ _ hnp]
    rfl
  · have hsel2 : selLayer s2 i = selLayer selection i := by
      unfold selLayer
      rw [hr2, hc2]
      congr 1
      funext j r' c'
      exact hagree r' c'
    have hfl2 : firstLastRows s2 i = firstLastRows selection i := by
      unfold firstLastRows
      rw [hr2, hc2]
      have hpred : (fun r' => (List.range selection.cols).any fun c' => s2.data i r' c')
          = fun r' => (List.range selection.cols).any fun c' => selection.data i r' c' := by
        funext r'
        congr 1
        funext c'
        exact hagree r' c'
      rw [hpred]
    show (let fl := firstLastRows s2 i
      let h := fl.2 - fl.1 + 1
      if h ≤ 0 then (create_grid3d grid s2).data i r c
      else
        (tileIterV (selLayer s2 i) h 1
          ((ceilDiv ((grid.rows : Int) - fl.2 - 1) h).toNat)
          (tileIterV (selLayer s2 i) h (-1) ((ceilDiv fl.1 h).toNat)
            (layerGrid (create_grid3d grid s2) i))).data r c)
      = (copy_paste_vertically grid selection).data i r c
    rw [hfl2, hsel2,
      show layerGrid (create_grid3d grid s2) i = layerGrid (create_grid3d grid selection) i
        from rfl]
    rfl

/-- Witness for C8: an empty single-layer mask over `[[9]]` leaves both
tiling operators' output equal to the input grid; a mask agreeing on that
layer gives the same output layer. -/
theorem c8_witness :
    (copy_paste_vertically (Grid.ofLists [[9]]) (Sel.ofLists [[[false]]])).data 0 0 0 = 9 ∧
    (copy_paste_horizontally (Grid.ofLists [[9]]) (Sel.ofLists [[[false]]])).data 0 0 0 = 9 :=
  have h := c8_empty_layer (Grid.ofLists [[9]]) (Sel.ofLists [[[false]]]) 0 (by
    intro r c hr hc
    have hr1 : r < 1 := hr
    have hc1 : c < 1 := hc
    have hr0 : r = 0 := by omega
    have hc0 : c = 0 := by omega
    subst hr0
    subst hc0
    rfl)
  ⟨h.1 0 0, h.2.1 0 0⟩

end ARC
